import Mathlib

/-!
Verification of the ngorm code generator (`cmd/ngormgen/nebula.go`).

This file gives a shallow embedding of the generator: the model extractor
(`File.genStruct`), the identifier derivation, the type codec
(`Field.funcValue`, `Field.funcBindResult`), the template emitters
(`Generator.funcAllFields` … `Generator.Create`), and the overall run
(`Generator.generate`, `Generator.format`, output writing in `main`).

Conventions of the embedding:
  * Go `panic` / `log.Fatal` inside the generator is modelled with
    `Except String`; an `Except.error` value means the run aborts and no
    output file is written.
  * Emitters return the exact text they append to the generator's buffer
    (`Printf` appends the format text, `Printlnf` appends it plus `"\n"`).
  * Go string primitives (`strings.ToLower`, `strings.TrimSpace`,
    `strings.HasPrefix`, `strings.Contains`, slicing) are modelled by
    structurally recursive functions over the character list so that the
    kernel can evaluate them on concrete inputs.
  * The behaviour at run time of the *generated* Go functions
    (`AllFields`, `ConditionItem`, `NqlValues`, the index `nql` string in
    `Create`) is additionally modelled by small semantic functions; each
    carries a comment deriving it from the emitted text.
-/

namespace Ngorm

/-- Go `strings.ToLower` (character-wise lowering, as `ToLower` acts on
the ASCII identifiers this generator handles). -/
def goToLower (s : String) : String := ⟨s.data.map Char.toLower⟩

/-- White-space test of Go `strings.TrimSpace` (restricted to the ASCII
space classes that can occur in parsed comment text). -/
def isSpaceChar (c : Char) : Bool := c = ' ' || c = '\t' || c = '\n' || c = '\r'

/-- Go `strings.TrimSpace`. -/
def goTrimSpace (s : String) : String :=
  ⟨((s.data.dropWhile isSpaceChar).reverse.dropWhile isSpaceChar).reverse⟩

/-- Go `strings.HasPrefix(s, pre)`. -/
def goHasPre (s pre : String) : Bool := pre.data.isPrefixOf s.data

/-- Go string slicing `s[n:]` (character-based; coincides with Go's
byte-based slicing at every use in this file, where the dropped front is
ASCII). -/
def strDropChars (s : String) (n : Nat) : String := ⟨s.data.drop n⟩

/-- Helper for `goContains`: does `sub` occur in `l`? -/
def goContainsAux (sub : List Char) : List Char → Bool
  | [] => sub.isPrefixOf []
  | c :: t => sub.isPrefixOf (c :: t) || goContainsAux sub t

/-- Go `strings.Contains(s, sub)`. -/
def goContains (s sub : String) : Bool := goContainsAux sub.data s.data

/-- Go constant `POTYPE_TAG = "Tag"`. -/
def POTYPE_TAG : String := "Tag"

/-- Go constant `POTYPE_EDGE = "Edge"`. -/
def POTYPE_EDGE : String := "Edge"

/-- Go struct `Field` of the generator (one declared scalar field). -/
structure Field where
  name : String
  nickname : String
  typeStr : String
  comment : String
  isIndex : Bool
  otherIndexFields : String
deriving Repr, DecidableEq

/-- Go variable `IDFIELD`: the synthetic identity field. -/
def IDFIELD : Field :=
  { name := "Id", nickname := "id", typeStr := "int64", comment := ""
  , isIndex := false, otherIndexFields := "" }

/-- Go struct `Struct` of the generator (one scanned type declaration). -/
structure Struct where
  name : String
  nickname : String
  fields : List Field
  isTag : Bool
  isEdge : Bool
deriving Repr, DecidableEq

/-- Shape of a field's type expression in a scanned declaration, as
`File.genStruct` case-analyses it: a plain identifier type
(`*ast.Ident`), a selector such as `base.Tag` (`*ast.SelectorExpr`,
keeping only the selector name), a pointer to a selector such as
`*base.Tag` (`*ast.StarExpr` around a selector), or any other shape,
which `genStruct` ignores. -/
inductive FieldTypeShape where
  | ident (typeName : String)
  | sel (selName : String)
  | star (selName : String)
  | otherShape
deriving Repr, DecidableEq

/-- One entry of `st.Fields.List` in a scanned struct declaration:
the declared names, the type shape, the field's trailing comment text
(`field.Comment.Text()`), and the result of
`reflect.StructTag(...).Lookup("idx")` — `none` when the field has no
tag or the tag has no `idx` key, `some v` when the key is present with
value `v` (possibly empty). -/
structure FieldDecl where
  names : List String
  shape : FieldTypeShape
  comment : String
  idxTag : Option String
deriving Repr, DecidableEq

/-- Construction of one `Field` inside `File.genStruct`:
`Field{name: name.Name, nickname: strings.ToLower(name.Name), typeStr:
fieldType.Name, comment: strings.TrimSpace(field.Comment.Text())}`, then
`fi.otherIndexFields, fi.isIndex = ...Lookup("idx")`. -/
def fieldOfName (typeName commentText : String) (idxTag : Option String) (n : String) : Field :=
  { name := n, nickname := goToLower n, typeStr := typeName
  , comment := goTrimSpace commentText
  , isIndex := idxTag.isSome, otherIndexFields := idxTag.getD "" }

/-- One iteration of the field loop in `File.genStruct`: an identifier
type contributes one `Field` per declared name; a selector or
star-selector named `Tag` / `Edge` sets the corresponding marker flag
and contributes no field; anything else is ignored. -/
def genStructStep (s : Struct) (fd : FieldDecl) : Struct :=
  match fd.shape with
  | .ident ty =>
      { s with fields := s.fields ++ fd.names.map (fieldOfName ty fd.comment fd.idxTag) }
  | .sel selName =>
      if selName = POTYPE_TAG then { s with isTag := true }
      else if selName = POTYPE_EDGE then { s with isEdge := true }
      else s
  | .star selName =>
      if selName = POTYPE_TAG then { s with isTag := true }
      else if selName = POTYPE_EDGE then { s with isEdge := true }
      else s
  | .otherShape => s

/-- Core of `File.genStruct` on one `*ast.TypeSpec` holding a struct
type: it builds `Struct{name: s.Name.Name, nickname:
strings.ToLower(s.Name.Name)}` and then walks the field list.  The
parameter `tp` is the `File.trimPrefix` configuration value; as in the
source, the body never consults it (the nickname is the plain lower-cased
declared name). -/
def genStruct (tp : String) (typeName : String) (fds : List FieldDecl) : Struct :=
  fds.foldl genStructStep
    { name := typeName, nickname := goToLower typeName
    , fields := [], isTag := false, isEdge := false }

/-- Go `strings.TrimPrefix(s, pre)`: removes `pre` from the front of `s`
when present, otherwise returns `s` unchanged. -/
def stringsTrimPre (s pre : String) : String :=
  if goHasPre s pre then strDropChars s pre.length else s

/-- Modelled from the spec (Identifier Policy, §4.3) for the refinement
claim about derived names: `externalName(declaredName) =
lowercase(trimPrefix(declaredName))`, honouring the configured trim
value `pre`.  This is the spec's formula, to be compared with what
`genStruct` actually computes. -/
def externalNameSpec (pre n : String) : String :=
  goToLower (stringsTrimPre n pre)

/-- Supported semantic types: exactly the `typeStr` values for which
`Field.funcValue` (and `Field.funcBindResult`) has a branch; everything
else makes the generator panic. -/
def supportedType (t : String) : Bool :=
  t = "string" || t = "int" || t = "int64" || t = "int32" ||
  t = "int16" || t = "int8" || t = "float64" || t = "float32"

/-- Go method `Field.funcValue`: the Go expression text serialising the
field's runtime value into query-literal form.  The final `panic(f.typeStr
+ "unsupport")` is modelled as `Except.error`. -/
def Field.funcValue (f : Field) (structName : String) : Except String String :=
  if f.typeStr = "string" then
    .ok ("\"\\\"\" + " ++ structName ++ "." ++ f.name ++ " + \"\\\"\"")
  else if f.typeStr = "int" then
    .ok ("strconv.Itoa(" ++ structName ++ "." ++ f.name ++ ")")
  else if f.typeStr = "int64" then
    .ok ("strconv.FormatInt(" ++ structName ++ "." ++ f.name ++ ", 10)")
  else if f.typeStr = "int32" then
    .ok ("strconv.FormatInt(int64(" ++ structName ++ "." ++ f.name ++ "), 10)")
  else if f.typeStr = "int16" then
    .ok ("strconv.FormatInt(int64(" ++ structName ++ "." ++ f.name ++ "), 10)")
  else if f.typeStr = "int8" then
    .ok ("strconv.FormatInt(int64(" ++ structName ++ "." ++ f.name ++ "), 10)")
  else if f.typeStr = "float64" then
    .ok ("strconv.FormatFloat(" ++ structName ++ "." ++ f.name ++ ", \x27E\x27, -1, 64)")
  else if f.typeStr = "float32" then
    .ok ("strconv.FormatFloat(float64(" ++ structName ++ "." ++ f.name ++ "), \x27E\x27, -1, 32)")
  else
    .error (f.typeStr ++ "unsupport")

/-- Total companion of `Field.funcValue`: the same branch texts, with a
junk value on unsupported types (where `funcValue` panics instead);
convenient for stating lemmas. -/
def Field.funcValueT (f : Field) (structName : String) : String :=
  if f.typeStr = "string" then
    "\"\\\"\" + " ++ structName ++ "." ++ f.name ++ " + \"\\\"\""
  else if f.typeStr = "int" then
    "strconv.Itoa(" ++ structName ++ "." ++ f.name ++ ")"
  else if f.typeStr = "int64" then
    "strconv.FormatInt(" ++ structName ++ "." ++ f.name ++ ", 10)"
  else if f.typeStr = "int32" then
    "strconv.FormatInt(int64(" ++ structName ++ "." ++ f.name ++ "), 10)"
  else if f.typeStr = "int16" then
    "strconv.FormatInt(int64(" ++ structName ++ "." ++ f.name ++ "), 10)"
  else if f.typeStr = "int8" then
    "strconv.FormatInt(int64(" ++ structName ++ "." ++ f.name ++ "), 10)"
  else if f.typeStr = "float64" then
    "strconv.FormatFloat(" ++ structName ++ "." ++ f.name ++ ", \x27E\x27, -1, 64)"
  else if f.typeStr = "float32" then
    "strconv.FormatFloat(float64(" ++ structName ++ "." ++ f.name ++ "), \x27E\x27, -1, 32)"
  else ""

/-- Go method `Field.funcEq`: the Go expression text of one equality
predicate used by the generated `ConditionItem`; the field literally
named `Id` is special-cased to the `id(v)==` form. -/
def Field.funcEq (f : Field) (pre structName nqlVarName : String) : Except String String := do
  let v ← f.funcValue structName
  if f.name = IDFIELD.name then
    pure ("id(" ++ nqlVarName ++ ")==" ++ v)
  else
    pure ("\"" ++ pre ++ f.nickname ++ "==\"+" ++ v)

/-- Total companion of `Field.funcEq`. -/
def Field.funcEqT (f : Field) (pre structName nqlVarName : String) : String :=
  if f.name = IDFIELD.name then
    "id(" ++ nqlVarName ++ ")==" ++ f.funcValueT structName
  else
    "\"" ++ pre ++ f.nickname ++ "==\"+" ++ f.funcValueT structName

/-- Go method `Field.toNebulaType`. -/
def Field.toNebulaType (f : Field) : String := f.typeStr

/-- Go method `Field.funcBindResult`: the generated code reading one
result column and assigning it onto the target field (or calling
`SetId` for the identity field).  The `panic(f.typeStr + "unsupport")`
default is modelled as `Except.error`. -/
def Field.funcBindResult (f : Field) (struct_name pre : String) : Except String String := do
  let set :=
    if f.nickname = IDFIELD.nickname then
      struct_name ++ ".SetId(f)"
    else
      struct_name ++ "." ++ f.name ++ " = " ++ f.typeStr ++ "(f)"
  let val ←
    if f.typeStr = "string" then pure "AsString()"
    else if f.typeStr = "int" then pure "AsInt()"
    else if f.typeStr = "int64" then pure "AsInt()"
    else if f.typeStr = "int32" then pure "AsInt()"
    else if f.typeStr = "int16" then pure "AsInt()"
    else if f.typeStr = "int8" then pure "AsInt()"
    else if f.typeStr = "float64" then pure "AsFloat()"
    else if f.typeStr = "float32" then pure "AsFloat()"
    else Except.error (f.typeStr ++ "unsupport")
  pure ("\nval,err := record.GetValueByColName(\"" ++ pre ++ f.nickname ++ "\")\n"
    ++ "\t\t\tif err != nil \x7b\n\t\t\t\tpanic(err)\n\t\t\t\x7d\n"
    ++ "\t\t\tf,err := val." ++ val ++ "\n"
    ++ "\t\t\tif err != nil \x7b\n\t\t\t\tpanic(err)\n\t\t\t\x7d\n"
    ++ set)

/-- Sequential effectful map over a list in `Except String`, as the Go
loops run: the first panicking element aborts the whole run. -/
def mapE {α β : Type} (fm : α → Except String β) : List α → Except String (List β)
  | [] => .ok []
  | x :: xs =>
    match fm x with
    | .error e => .error e
    | .ok y =>
      match mapE fm xs with
      | .error e => .error e
      | .ok ys => .ok (y :: ys)

/-- Text of the linear dispatch chain the emitters print inside
`for _, f := range fields`: for entry `i` with nickname `n` and body `b`,
`Printf("else ")` when `i ≠ 0`, then the `if f == "n"` opening line, the
body line, and the closing brace. -/
def chainTextAux (first : Bool) : List (String × String) → String
  | [] => ""
  | (nick, body) :: rest =>
    (if first then "" else "else ") ++ "if f == \"" ++ nick ++ "\" \x7b\n" ++ body ++ "\n\x7d"
      ++ chainTextAux false rest

/-- Full loop block around the dispatch chain, as printed when
`len(s.fields) > 0`. -/
def chainBlock (items : List (String × String)) : String :=
  "\tfor _, f := range fields \x7b\n" ++ chainTextAux true items ++ "\n\t\x7d\n"

/-- Go `Generator.funcAllFields`: the generated `AllFields` accessor. -/
def funcAllFields (s : Struct) : String :=
  "func (m *" ++ s.name ++ ") AllFields() []string \x7b\n"
  ++ "\treturn []string\x7b\n"
  ++ String.join (s.fields.map (fun f => "\t\t\"" ++ f.nickname ++ "\","))
  ++ "\t\x7d\n"
  ++ "\x7d\n"

/-- Go `Generator.funcAllFieldsWithId`: as `AllFields` with `"id"`
appended before the closing brace. -/
def funcAllFieldsWithId (s : Struct) : String :=
  "func (m *" ++ s.name ++ ") AllFieldsWithId() []string \x7b\n"
  ++ "\treturn []string\x7b\n"
  ++ String.join (s.fields.map (fun f => "\t\t\"" ++ f.nickname ++ "\","))
  ++ "\t\t\"id\","
  ++ "\t\x7d\n"
  ++ "\x7d\n"

/-- Go `Generator.funcTagName`: emitted only when `s.isTag`. -/
def funcTagName (s : Struct) : String :=
  if s.isTag then
    "func (m *" ++ s.name ++ ") TagName() string \x7b\n"
    ++ "\treturn \"" ++ s.nickname ++ "\"\n"
    ++ "\x7d\n"
  else ""

/-- Go `Generator.funcEdgeName`: emitted only when `s.isEdge`. -/
def funcEdgeName (s : Struct) : String :=
  if s.isEdge then
    "func (m *" ++ s.name ++ ") EdgeName() string \x7b\n"
    ++ "\treturn \"" ++ s.nickname ++ "\"\n"
    ++ "\x7d\n"
  else ""

/-- Go `Generator.funcNqlNames`: the generated `NqlNames` joins the
requested names with `,` — in request order, with no membership check. -/
def funcNqlNames (s : Struct) : String :=
  "func (m *" ++ s.name ++ ") NqlNames(fields ...string) string \x7b\n"
  ++ "\treturn strings.Join(fields, \",\")\n"
  ++ "\x7d\n"

/-- Per-field chain entry of `funcNqlNameValues`: nickname and the
`values = append(...)` body line. -/
def nqlNameValuesBody (f : Field) : Except String (String × String) := do
  let v ← f.funcValue "m"
  pure (f.nickname, "values = append(values, \"" ++ f.nickname ++ "\" + split + " ++ v ++ ")")

/-- Go `Generator.funcNqlNameValues`. -/
def funcNqlNameValues (s : Struct) : Except String String := do
  let bodies ← mapE nqlNameValuesBody s.fields
  pure ("func (m *" ++ s.name ++ ") NqlNameValues(split string, fields ...string) []string \x7b\n"
    ++ "\tvalues := make([]string, 0)\n"
    ++ (if s.fields.length > 0 then chainBlock bodies else "")
    ++ "\treturn values\n"
    ++ "\x7d\n")

/-- Per-field chain entry of `funcNqlValues`: the generated body
accumulates into `values` with a leading `,` per match; the emitted
function finally returns `values[1:]`. -/
def nqlValuesBody (f : Field) : Except String (String × String) := do
  let v ← f.funcValue "m"
  pure (f.nickname, "values = values + \",\" + " ++ v)

/-- Go `Generator.funcNqlValues` (see the doc comment above). -/
def funcNqlValues (s : Struct) : Except String String := do
  let bodies ← mapE nqlValuesBody s.fields
  pure ("func (m *" ++ s.name ++ ") NqlValues(fields ...string) string \x7b\n"
    ++ "\tvar values string\n"
    ++ (if s.fields.length > 0 then chainBlock bodies else "")
    ++ "\treturn values[1:]\n"
    ++ "\x7d\n")

/-- Go `Generator.funcNqlBind`. -/
def funcNqlBind (s : Struct) : String :=
  "func (m *" ++ s.name ++ ") NqlBind(structName string, fields ...string) []string \x7b\n"
  ++ "\tvalues := make([]string, 0)\n"
  ++ (if s.fields.length > 0 then
      chainBlock (s.fields.map (fun f =>
        (f.nickname,
         "values = append(values, structName + \"." ++ s.nickname ++ "." ++ f.nickname
           ++ " as " ++ s.nickname ++ "_" ++ f.nickname ++ "\")")))
     else "")
  ++ "\treturn values\n"
  ++ "\x7d\n"

/-- Per-field chain entry of `funcConditionItem`: the generated
`ConditionItem` dispatches over the declared fields only, appending one
`funcEq` predicate per matched request. -/
def conditionItemBody (s : Struct) (f : Field) : Except String (String × String) := do
  let e ← f.funcEq ("v." ++ s.nickname ++ ".") "m" "v"
  pure (f.nickname, "result = append(result," ++ e ++ ")")

/-- Go `Generator.funcConditionItem` (see the doc comment above). -/
def funcConditionItem (s : Struct) : Except String String := do
  let bodies ← mapE (conditionItemBody s) s.fields
  pure ("func (m *" ++ s.name ++ ") ConditionItem(fields ...string) []string \x7b\n"
    ++ "result := make([]string, 0)\n"
    ++ (if s.fields.length > 0 then chainBlock bodies else "")
    ++ "return result\n"
    ++ "\x7d\n")

/-- Go `Generator.funcBindOne`. -/
def funcBindOne (s : Struct) : String :=
  "func (m *" ++ s.name ++ ") BindOne(result *nebula_go.ResultSet,fields ...string) \x7b\n"
  ++ "if result.GetRowSize() == 0 \x7b\n"
  ++ "\treturn\n"
  ++ "\x7d\n"
  ++ "record,err := result.GetRowValuesByIndex(0)\n"
  ++ "if err != nil \x7b\n"
  ++ "panic(err)\n"
  ++ "\x7d\n"
  ++ "m.BindRecord(record)\n"
  ++ "\x7d\n"

/-- Go `Generator.funcOne`. -/
def funcOne (s : Struct) : String :=
  "func (m *" ++ s.name ++ ") One(session *nebula_go.Session,fields ...string) \x7b\n"
  ++ "var where string\n"
  ++ "if len(fields) > 0 \x7b\n"
  ++ "where = \" WHERE \" + strings.Join(m.ConditionItem(fields...), \",\")\n"
  ++ "\x7d\n"
  ++ "nql := \"MATCH (v:" ++ s.nickname ++ ") \" + where + \" return id(v) as "
    ++ s.nickname ++ "_id\" + \n"
  ++ "`\n"
  ++ String.join (s.fields.map (fun f =>
      "\t,v." ++ s.nickname ++ "." ++ f.nickname ++ " as " ++ s.nickname ++ "_" ++ f.nickname ++ "\n"))
  ++ " limit 1`\n"
  ++ "result,err := session.Execute(nql)\n"
  ++ "if err != nil \x7b\n"
  ++ "panic(err)\n"
  ++ "\x7d\n"
  ++ "if result.GetErrorCode() != 0 \x7b\n"
  ++ "\tpanic(result.GetErrorMsg())\n"
  ++ "\x7d\n"
  ++ "if result.GetRowSize() == 0 \x7b\n"
  ++ "\treturn\n"
  ++ "\x7d\n"
  ++ "record,err := result.GetRowValuesByIndex(0)\n"
  ++ "if err != nil \x7b\n"
  ++ "panic(err)\n"
  ++ "\x7d\n"
  ++ "m.BindRecord(record)\n"
  ++ "\x7d\n"

/-- Go `Generator.funcList`. -/
def funcList (s : Struct) : String :=
  "func (m *" ++ s.name ++ ") List(session *nebula_go.Session, ms *" ++ s.name
    ++ "List, offset, size int64, fields ...string) \x7b\n"
  ++ "var where string\n"
  ++ "if len(fields) > 0 \x7b\n"
  ++ "where = \" WHERE \" + strings.Join(m.ConditionItem(fields...), \",\")\n"
  ++ "\x7d\n"
  ++ "nql := \"MATCH (v:" ++ s.nickname ++ ") \" + where + \" return id(v) as "
    ++ s.nickname ++ "_id\" +\n"
  ++ String.join (s.fields.map (fun f =>
      "\t\t\t\",v." ++ s.nickname ++ "." ++ f.nickname ++ " as " ++ s.nickname ++ "_"
        ++ f.nickname ++ "\" +\n"))
  ++ " \" SKIP \" + strconv.FormatInt(offset, 10) + \" LIMIT \" + strconv.FormatInt(size, 10)\n"
  ++ "result,err := session.Execute(nql)\n"
  ++ "if err != nil \x7b\n"
  ++ "panic(err)\n"
  ++ "\x7d\n"
  ++ "if result.GetErrorCode() != 0 \x7b\n"
  ++ "\tpanic(result.GetErrorMsg())\n"
  ++ "\x7d\n"
  ++ "ms.BindResult(result)\n"
  ++ "\x7d\n"

/-- Go `Generator.funcInsertTag`: emitted only when `s.isTag`. -/
def funcInsertTag (s : Struct) : String :=
  if s.isTag then
    "func (m *" ++ s.name ++ ") Insert(session *nebula_go.Session, fields ...string) \x7b\n"
    ++ "if len(fields) == 0 \x7b\n"
    ++ "fields = m.AllFields()\n"
    ++ "\x7d\n"
    ++ "nql := \"insert VERTEX \" + m.TagName() +\"(\"+m.NqlNames(fields...)+\") VALUES \" + \n"
    ++ "\tstrconv.FormatInt(m.Id2(),10) + \":(\" + m.NqlValues(fields...)+ \")\"\n"
    ++ "result,_ := session.Execute(nql)\n"
    ++ "checkResultSet(nql, result)\n"
    ++ "\x7d\n"
  else ""

/-- Go `Generator.funcInsertEdge`: emitted only when `s.isEdge`. -/
def funcInsertEdge (s : Struct) : String :=
  if s.isEdge then
    "func (m *" ++ s.name ++ ") Insert(session *nebula_go.Session, fields ...string) \x7b\n"
    ++ "if len(fields) == 0 \x7b\n"
    ++ "fields = m.AllFields()\n"
    ++ "\x7d\n"
    ++ "nql := \"insert EDGE \" + m.EdgeName() +\"(\"+m.NqlNames(fields...)+\") VALUES \" + \n"
    ++ "\tstrconv.FormatInt(m.Src(),10) + \"->\" + strconv.FormatInt(m.Dst(),10) + \":(\" + m.NqlValues(fields...)+ \")\"\n"
    ++ "result,_ := session.Execute(nql)\n"
    ++ "checkResultSet(nql, result)\n"
    ++ "\x7d\n"
  else ""

/-- Go `Generator.funcRemoveTag`: emitted only when `s.isTag`. -/
def funcRemoveTag (s : Struct) : String :=
  if s.isTag then
    "func (m *" ++ s.name ++ ") RemoveById(session *nebula_go.Session) \x7b\n"
    ++ "nql := \"DELETE VERTEX \" + strconv.FormatInt(m.Id(),10) + \" WITH EDGE;\"\n"
    ++ "result,_ := session.Execute(nql)\n"
    ++ "checkResultSet(nql, result)\n"
    ++ "\x7d\n"
  else ""

/-- Go `Generator.funcRemoveEdge`: emitted only when `s.isEdge`. -/
def funcRemoveEdge (s : Struct) : String :=
  if s.isEdge then
    "func (m *" ++ s.name ++ ") RemoveById(session *nebula_go.Session) \x7b\n"
    ++ "nql := \"DELETE EDGE \" + strconv.FormatInt(m.Src(),10) + \"->\" + strconv.FormatInt(m.Dst(),10)\n"
    ++ "result,_ := session.Execute(nql)\n"
    ++ "checkResultSet(nql, result)\n"
    ++ "\x7d\n"
  else ""

/-- Go `Generator.funcBindResult`: the generated `List` alias type plus
its `BindResult` row loop. -/
def funcBindResult (s : Struct) : String :=
  "type " ++ s.name ++ "List []*" ++ s.name ++ "\n"
  ++ "func (ms *" ++ s.name ++ "List) BindResult(result *nebula_go.ResultSet, fields ...string) \x7b\n"
  ++ "if len(fields) == 0 \x7b\n"
  ++ "fields = (&" ++ s.name ++ "\x7b\x7d).AllFieldsWithId()\n"
  ++ "\x7d\n"
  ++ "for i,_ := range result.GetRows() \x7b\n"
  ++ "record,err := result.GetRowValuesByIndex(i)\n"
  ++ "if err != nil \x7b\n"
  ++ "panic(err)\n"
  ++ "\x7d\n"
  ++ "m := &" ++ s.name ++ "\x7b\x7d\n"
  ++ "m.BindRecord(record, fields...)\n"
  ++ "*ms = append(*ms, m)\n"
  ++ "\x7d\n"
  ++ "\x7d\n"

/-- Per-field chain entry of `funcBindRecord`: nickname and the
`funcBindResult` snippet. -/
def bindRecordBody (s : Struct) (f : Field) : Except String (String × String) := do
  let t ← f.funcBindResult "m" (s.nickname ++ "_")
  pure (f.nickname, t)

/-- Go `Generator.funcBindRecord`: for Tag structs the identity column
is bound first via `IDFIELD.funcBindResult`, then the declared fields
are dispatched. -/
def funcBindRecord (s : Struct) : Except String String := do
  let idPart ←
    if s.isTag then do
      let t ← IDFIELD.funcBindResult "m" (s.nickname ++ "_")
      pure (t ++ "\n")
    else pure ""
  let bodies ← mapE (bindRecordBody s) s.fields
  pure ("func (m *" ++ s.name ++ ") BindRecord(record *nebula_go.Record, fields ...string) \x7b\n"
    ++ "if len(fields) == 0 \x7b\n"
    ++ "fields = m.AllFieldsWithId()\n"
    ++ "\x7d\n"
    ++ idPart
    ++ (if s.fields.length > 0 then chainBlock bodies else "")
    ++ "\x7d\n")

/-- Column list of the emitted `CREATE TAG` / `CREATE EDGE` body: one
`nickname type COMMENT '...'` entry per field, comma-newline separated
(no trailing comma). -/
def createCols : List Field → String
  | [] => ""
  | [f] => "\t\t" ++ f.nickname ++ "\t\t\t" ++ f.toNebulaType ++ "\t\t\tCOMMENT \x27" ++ f.comment ++ "\x27"
  | f :: g :: rest =>
    "\t\t" ++ f.nickname ++ "\t\t\t" ++ f.toNebulaType ++ "\t\t\tCOMMENT \x27" ++ f.comment ++ "\x27"
      ++ ",\n" ++ createCols (g :: rest)

/-- Index statements of `Generator.CreateTag`: one
`CREATE TAG INDEX IF NOT EXISTS idx_<nickname> ON <label>(<otherIndexFields>)`
per field marked `isIndex`. -/
def createTagIdx : List Field → String
  | [] => ""
  | f :: rest =>
    (if f.isIndex then
      "nql = \"CREATE TAG INDEX IF NOT EXISTS idx_" ++ f.nickname
        ++ " ON \" + m.TagName() + \"(" ++ f.otherIndexFields ++ ")\"\n"
      ++ "result,_ = session.Execute(nql)\n"
      ++ "checkResultSet(nql, result)\n"
     else "") ++ createTagIdx rest

/-- Go `Generator.CreateTag`: emitted only when `s.isTag`. -/
def CreateTag (s : Struct) : String :=
  if s.isTag then
    "func (m *" ++ s.name ++ ") Create(session *nebula_go.Session) \x7b\n"
    ++ "\tnql:=`CREATE TAG IF NOT EXISTS ` + m.TagName() + `(\n"
    ++ createCols s.fields
    ++ ");`\n"
    ++ "result,_ := session.Execute(nql)\n"
    ++ "checkResultSet(nql, result)\n"
    ++ createTagIdx s.fields
    ++ "\x7d\n"
  else ""

/-- Go `Generator.CreateEdge`: emitted only when `s.isEdge`; edges get
no index statements. -/
def CreateEdge (s : Struct) : String :=
  if s.isEdge then
    "func (m *" ++ s.name ++ ") Create(session *nebula_go.Session) \x7b\n"
    ++ "\tnql := `CREATE EDGE IF NOT EXISTS ` + m.EdgeName() + `(\n"
    ++ createCols s.fields
    ++ "\t);`\n"
    ++ "result,_ := session.Execute(nql)\n"
    ++ "checkResultSet(nql, result)\n"
    ++ "\x7d\n"
  else ""

/-- Go `Generator.checkResultSet`: the fixed helper emitted once before
the per-entity fragments. -/
def checkResultSetText : String :=
  "\n\tfunc checkResultSet(prefix string, res *nebula_go.ResultSet) \x7b\n"
  ++ "\t\tif !res.IsSucceed() \x7b\n"
  ++ "\t\t\tpanic(fmt.Sprintf(\"%s, ErrorCode: %v, ErrorMsg: %s\", prefix, res.GetErrorCode(), res.GetErrorMsg()))\n"
  ++ "\t\t\x7d\n"
  ++ "\t\x7d\n"

/-- Go `Generator.Create` (the aggregate bootstrap): one
`(&Name{}).Create(session)` line per Tag or Edge struct, Plain structs
contributing nothing. -/
def Create (structs : List Struct) : String :=
  "func Create(session *nebula_go.Session) \x7b\n"
  ++ String.join (structs.map (fun s =>
      if s.isTag || s.isEdge then "(&" ++ s.name ++ "\x7b\x7d).Create(session)\n" else ""))
  ++ "\x7d\n"

/-- Per-struct body of the loop in `Generator.generate`: every emitter
is invoked for every struct, in the fixed source order; only the
Tag/Edge-gated emitters return empty text for a non-matching struct. -/
def generateStruct (s : Struct) : Except String String := do
  let nqlNameValues ← funcNqlNameValues s
  let nqlValues ← funcNqlValues s
  let bindRecord ← funcBindRecord s
  let conditionItem ← funcConditionItem s
  pure (funcAllFields s ++ funcAllFieldsWithId s ++ funcTagName s ++ funcEdgeName s
    ++ nqlNameValues ++ nqlValues ++ funcNqlNames s ++ funcNqlBind s
    ++ CreateTag s ++ CreateEdge s ++ funcInsertTag s ++ funcInsertEdge s
    ++ bindRecord ++ funcBindResult s ++ conditionItem ++ funcBindOne s
    ++ funcOne s ++ funcList s ++ funcRemoveTag s ++ funcRemoveEdge s)

/-- Emission phase of `Generator.generate`: the `checkResultSet` helper,
then every struct's fragments, then the aggregate `Create`. -/
def generate (structs : List Struct) : Except String String := do
  let parts ← mapE generateStruct structs
  pure (checkResultSetText ++ String.join parts ++ Create structs)

/-- One scanned source file, reduced to what `Generator.addPackage` and
`File.genStruct` consume: the text of its first comment group
(`file.Comments[0].Text()`, `none` when the file has no comments) and
its struct type declarations in order (name and field list each). -/
structure SrcFile where
  firstCommentText : Option String
  decls : List (String × List FieldDecl)
deriving Repr, DecidableEq

/-- The skip test in `Generator.addPackage`: a file whose first comment
group contains `Code generated by` is excluded. -/
def isGeneratedFile (f : SrcFile) : Bool :=
  match f.firstCommentText with
  | some t => goContains t "Code generated by"
  | none => false

/-- Go `Generator.addPackage`: keeps exactly the files not flagged as
generated output. -/
def addPackage (files : List SrcFile) : List SrcFile :=
  files.filter (fun f => !isGeneratedFile f)

/-- Go `File.allowTypeName`: `true` when no allow-list was supplied,
membership otherwise. -/
def allowTypeName (allow : Option (List String)) (n : String) : Bool :=
  match allow with
  | none => true
  | some l => l.contains n

/-- Structs extracted from one file: `File.genStruct` on each type
declaration whose name passes the allow-list. -/
def fileStructs (tp : String) (allow : Option (List String)) (f : SrcFile) : List Struct :=
  (f.decls.filter (fun d => allowTypeName allow d.1)).map (fun d => genStruct tp d.1 d.2)

/-- Extraction phase of `Generator.generate`: walk the files kept by
`addPackage` in order, accumulating `g.Structs`. -/
def extractStructs (tp : String) (allow : Option (List String)) (files : List SrcFile) : List Struct :=
  ((addPackage files).map (fileStructs tp allow)).flatten

/-- Go `Generator.format`: the external `format.Source` collaborator is
a parameter returning `none` on failure; on failure the raw buffer is
returned unchanged (with a warning logged). -/
def formatOutput (goFmt : String → Option String) (buf : String) : String :=
  match goFmt buf with
  | some src => src
  | none => buf

/-- Fixed preamble printed by `main` before generation: banner, package
clause and import block. -/
def headerText (argsText pkgName : String) : String :=
  "// Code generated by \"ngormgen " ++ argsText ++ "\"; DO NOT EDIT.\n"
  ++ "\n"
  ++ "package " ++ pkgName
  ++ "\n"
  ++ "import ("
  ++ "\t\"strconv\"\n"
  ++ "\tnebula_go \"github.com/vesoft-inc/nebula-go/v3\"\n"
  ++ "\t\t\"strings\"\n"
  ++ "\t\t\"fmt\"\n"
  ++ ")\n"

/-- End-to-end run of `main` after flag parsing: extract, emit, format,
and return the bytes that `ioutil.WriteFile` receives.  An `error`
value models a `panic`/`log.Fatal` abort: the write never happens. -/
def ngormgenRun (argsText pkgName tp : String) (allow : Option (List String))
    (files : List SrcFile) (goFmt : String → Option String) : Except String String := do
  let body ← generate (extractStructs tp allow files)
  pure (formatOutput goFmt (headerText argsText pkgName ++ body))

/-- Content of the output file after a run: `none` when the run aborted
(nothing, not even a partial file, is written). -/
def writtenFile (argsText pkgName tp : String) (allow : Option (List String))
    (files : List SrcFile) (goFmt : String → Option String) : Option String :=
  (ngormgenRun argsText pkgName tp allow files goFmt).toOption

/-- Run-time value of the generated `AllFields()`: read off the emitted
string-slice literal of `funcAllFields`, it returns the declared
nicknames in declaration order. -/
def allFields (s : Struct) : List String := s.fields.map (fun f => f.nickname)

/-- Run-time value of the generated `AllFieldsWithId()`: the same
literal with `"id"` appended last. -/
def allFieldsWithId (s : Struct) : List String := s.fields.map (fun f => f.nickname) ++ ["id"]

/-- Run-time value of the index `nql` string assembled by the generated
`Create` for one indexed field: read off `createTagIdx`, with
`m.TagName()` returning `s.nickname` per `funcTagName`. -/
def tagIndexNql (s : Struct) (f : Field) : String :=
  "CREATE TAG INDEX IF NOT EXISTS idx_" ++ f.nickname ++ " ON " ++ s.nickname
    ++ "(" ++ f.otherIndexFields ++ ")"

/-- One branch of the generated `ConditionItem` dispatch chain: nickname
paired with the `funcEq` predicate text. -/
def condBranch (s : Struct) (f : Field) : Except String (String × String) := do
  let e ← f.funcEq ("v." ++ s.nickname ++ ".") "m" "v"
  pure (f.nickname, e)

/-- Branch list of the generated `ConditionItem` dispatch chain (see the
doc comment above). -/
def conditionBranches (s : Struct) : Except String (List (String × String)) :=
  mapE (condBranch s) s.fields

/-- Run-time behaviour of the generated `ConditionItem`: for each
requested name in request order, the first declared field with that
nickname contributes its predicate; unmatched names contribute
nothing.  Read off the `if/else if` chain of `funcConditionItem`. -/
def genConditionItemRun (s : Struct) (reqs : List String) : Except String (List String) := do
  let bs ← conditionBranches s
  pure (reqs.foldl (fun result f =>
    match bs.find? (fun b => b.1 == f) with
    | some b => result ++ [b.2]
    | none => result) [])

/-- One iteration of the loop in the generated `NqlValues`, with `lit f`
the run-time string the serialisation expression of field `f` evaluates
to: the first declared field whose nickname equals the requested name
appends `"," + value`; an unmatched name falls through the whole
`if/else if` chain and appends nothing. -/
def nqlValuesStep (s : Struct) (lit : Field → String) (values : String) (f : String) : String :=
  match s.fields.find? (fun fd => fd.nickname == f) with
  | some fd => values ++ "," ++ lit fd
  | none => values

/-- Accumulated `values` string after the loop of the generated
`NqlValues`. -/
def nqlValuesAcc (s : Struct) (lit : Field → String) (reqs : List String) : String :=
  reqs.foldl (nqlValuesStep s lit) ""

/-- Run-time behaviour of the generated `NqlValues`: the loop above,
then `return values[1:]`, whose slicing panics (modelled `none`)
exactly when `values` is still empty.  Read off the chain of
`funcNqlValues`. -/
def genNqlValuesRun (s : Struct) (lit : Field → String) (reqs : List String) : Option String :=
  if nqlValuesAcc s lit reqs = "" then none
  else some (strDropChars (nqlValuesAcc s lit reqs) 1)

/-- Requested names that match a declared field, mapped to their
run-time serialised values, in request order. -/
def matchedValues (s : Struct) (lit : Field → String) (reqs : List String) : List String :=
  reqs.filterMap (fun f => (s.fields.find? (fun fd => fd.nickname == f)).map lit)

/-- Comma-join of a list of strings (no trailing or leading comma). -/
def commaJoin : List String → String
  | [] => ""
  | [v] => v
  | v :: w :: rest => v ++ "," ++ commaJoin (w :: rest)

/-- Comma-prefixed concatenation of a list of strings: the shape the
`NqlValues` accumulator takes. -/
def withCommas : List String → String
  | [] => ""
  | v :: rest => "," ++ v ++ withCommas rest

/-! ### Concrete inputs used by counterexamples and witnesses -/

/-- A Plain declaration: no `Tag`/`Edge` marker, one string field. -/
def plainConfigS : Struct :=
  genStruct "" "Config" [⟨["host"], .ident "string", "", none⟩]

/-- A Vertex declaration with one string field `Name`. -/
def c3Person : Struct :=
  genStruct "" "Person" [⟨[], .star "Tag", "", none⟩, ⟨["Name"], .ident "string", "", none⟩]

/-- A Vertex declaration that declares its own field `Id int64`. -/
def c3Acct : Struct :=
  genStruct "" "Acct" [⟨[], .star "Tag", "", none⟩, ⟨["Id"], .ident "int64", "", none⟩]

/-- The field `Id int64` as extracted from `c3Acct`. -/
def idDeclField : Field := fieldOfName "int64" "" none "Id"

/-- A Vertex declaration with one indexed field `Age int32` whose `idx`
tag is present with an empty value. -/
def c4Person : Struct :=
  genStruct "" "Person" [⟨[], .star "Tag", "", none⟩, ⟨["Age"], .ident "int32", "", some ""⟩]

/-- The indexed field `Age int32` with empty index target, as extracted
from `c4Person`. -/
def ageIdxField : Field := fieldOfName "int32" "" (some "") "Age"

/-- A Vertex declaration that declares its own field `Id int64`
(identical input to `c3Acct`, for the reserved-name claim). -/
def c5Acct : Struct :=
  genStruct "" "Acct" [⟨[], .star "Tag", "", none⟩, ⟨["Id"], .ident "int64", "", none⟩]

/-- A Vertex declaration with one string field (no `id` field). -/
def c5Person : Struct :=
  genStruct "" "Person" [⟨[], .star "Tag", "", none⟩, ⟨["Name"], .ident "string", "", none⟩]

/-- A Vertex declaration with one string field `Name`. -/
def c6Person : Struct :=
  genStruct "" "Person" [⟨[], .star "Tag", "", none⟩, ⟨["Name"], .ident "string", "", none⟩]

/-- A fixed run-time valuation for `c6Person`: every field serialises to
`"V"`. -/
def litC6 : Field → String := fun _ => "V"

/-- A source file declaring two Vertex types `AB` and `Ab` whose derived
external names collide (both `ab`). -/
def c7File : SrcFile :=
  ⟨none,
   [ ("AB", [⟨[], .star "Tag", "", none⟩, ⟨["Name"], .ident "string", "", none⟩])
   , ("Ab", [⟨[], .star "Tag", "", none⟩, ⟨["Name"], .ident "string", "", none⟩]) ]⟩

/-- A source file declaring a Vertex type with a `bool` field, which the
type codec does not support. -/
def c8File : SrcFile :=
  ⟨none, [("B", [⟨[], .star "Tag", "", none⟩, ⟨["Ok"], .ident "bool", "", none⟩])]⟩

/-- The struct extracted from `c8File`. -/
def c8Struct : Struct :=
  genStruct "" "B" [⟨[], .star "Tag", "", none⟩, ⟨["Ok"], .ident "bool", "", none⟩]

/-- The unsupported `Ok bool` field of `c8Struct`. -/
def c8BoolField : Field := fieldOfName "bool" "" none "Ok"

/-- A source file whose first comment group is a generated-code banner,
yet which declares a Vertex type. -/
def c10GenFile : SrcFile :=
  ⟨some "Code generated by \"ngormgen -type Person\"; DO NOT EDIT.",
   [("Person", [⟨[], .star "Tag", "", none⟩, ⟨["Name"], .ident "string", "", none⟩])]⟩

example : (genStruct "" "Person"
    [ ⟨[], .star "Tag", "", none⟩
    , ⟨["Name"], .ident "string", "", none⟩ ]).isTag = true := by decide

example : (genStruct "" "Person"
    [ ⟨[], .star "Tag", "", none⟩
    , ⟨["Name"], .ident "string", "", none⟩ ]).fields =
    [{ name := "Name", nickname := "name", typeStr := "string", comment := ""
     , isIndex := false, otherIndexFields := "" }] := by decide

example : (genStruct "Ng" "NgPerson" []).nickname = "ngperson" := by decide

example : externalNameSpec "Ng" "NgPerson" = "person" := by decide

/-! ### Helper lemmas about the embedding -/

theorem ok_bind {α β : Type} (a : α) (g : α → Except String β) :
    (Except.ok a >>= g) = g a := rfl

theorem error_bind {α β : Type} (e : String) (g : α → Except String β) :
    ((Except.error e : Except String α) >>= g) = Except.error e := rfl

theorem mapE_ok_of_all {α β : Type} (fm : α → Except String β) (g : α → β) :
    ∀ l : List α, (∀ x ∈ l, fm x = .ok (g x)) → mapE fm l = .ok (l.map g)
  | [], _ => rfl
  | x :: xs, h => by
    have hx := h x (List.mem_cons_self x xs)
    have hxs := mapE_ok_of_all fm g xs (fun y hy => h y (List.mem_cons_of_mem x hy))
    simp [mapE, hx, hxs]

theorem mapE_isOk_of_all {α β : Type} (fm : α → Except String β) :
    ∀ l : List α, (∀ x ∈ l, ∃ y, fm x = .ok y) → ∃ ys, mapE fm l = .ok ys
  | [], _ => ⟨[], rfl⟩
  | x :: xs, h => by
    obtain ⟨y, hy⟩ := h x (List.mem_cons_self x xs)
    obtain ⟨ys, hys⟩ := mapE_isOk_of_all fm xs (fun z hz => h z (List.mem_cons_of_mem x hz))
    exact ⟨y :: ys, by simp [mapE, hy, hys]⟩

theorem mapE_error_of_mem {α β : Type} (fm : α → Except String β) :
    ∀ l : List α, ∀ x ∈ l, (∃ e, fm x = .error e) → ∃ e2, mapE fm l = .error e2
  | y :: ys, x, hmem, ⟨e, he⟩ => by
    rcases List.mem_cons.mp hmem with rfl | hmem2
    · exact ⟨e, by simp [mapE, he]⟩
    · cases hy : fm y with
      | error e3 => exact ⟨e3, by simp [mapE, hy]⟩
      | ok v =>
        obtain ⟨e2, he2⟩ := mapE_error_of_mem fm ys x hmem2 ⟨e, he⟩
        exact ⟨e2, by simp [mapE, hy, he2]⟩

theorem funcValue_ok (f : Field) (sn : String) (h : supportedType f.typeStr = true) :
    f.funcValue sn = .ok (f.funcValueT sn) := by
  unfold Field.funcValue Field.funcValueT
  split_ifs with h1 h2 h3 h4 h5 h6 h7 h8
  all_goals first
    | rfl
    | (exfalso; unfold supportedType at h; simp [h1, h2, h3, h4, h5, h6, h7, h8] at h)

theorem funcValue_error (f : Field) (sn : String) (h : supportedType f.typeStr = false) :
    f.funcValue sn = .error (f.typeStr ++ "unsupport") := by
  unfold Field.funcValue
  split_ifs with h1 h2 h3 h4 h5 h6 h7 h8
  all_goals first
    | rfl
    | (exfalso; unfold supportedType at h; simp_all)

theorem funcEq_ok (f : Field) (pre sn nv : String) (h : supportedType f.typeStr = true) :
    f.funcEq pre sn nv = .ok (f.funcEqT pre sn nv) := by
  unfold Field.funcEq Field.funcEqT
  rw [funcValue_ok f sn h]
  simp only [ok_bind]
  split_ifs with hid <;> rfl

theorem funcEqT_id (f : Field) (pre sn nv : String) (hid : f.name = IDFIELD.name) :
    f.funcEqT pre sn nv = "id(" ++ nv ++ ")==" ++ f.funcValueT sn := by
  unfold Field.funcEqT
  rw [if_pos hid]

theorem funcEqT_prop (f : Field) (pre sn nv : String) (hid : f.name ≠ IDFIELD.name) :
    f.funcEqT pre sn nv = "\"" ++ pre ++ f.nickname ++ "==\"+" ++ f.funcValueT sn := by
  unfold Field.funcEqT
  rw [if_neg hid]

theorem funcBindResult_ok (f : Field) (a b : String) (h : supportedType f.typeStr = true) :
    ∃ t, f.funcBindResult a b = .ok t := by
  unfold supportedType at h
  unfold Field.funcBindResult
  rcases Bool.or_eq_true_iff.mp h with h78 | h8
  rotate_left
  · rw [of_decide_eq_true h8]; exact ⟨_, rfl⟩
  rcases Bool.or_eq_true_iff.mp h78 with h67 | h7
  rotate_left
  · rw [of_decide_eq_true h7]; exact ⟨_, rfl⟩
  rcases Bool.or_eq_true_iff.mp h67 with h56 | h6
  rotate_left
  · rw [of_decide_eq_true h6]; exact ⟨_, rfl⟩
  rcases Bool.or_eq_true_iff.mp h56 with h45 | h5
  rotate_left
  · rw [of_decide_eq_true h5]; exact ⟨_, rfl⟩
  rcases Bool.or_eq_true_iff.mp h45 with h34 | h4
  rotate_left
  · rw [of_decide_eq_true h4]; exact ⟨_, rfl⟩
  rcases Bool.or_eq_true_iff.mp h34 with h23 | h3
  rotate_left
  · rw [of_decide_eq_true h3]; exact ⟨_, rfl⟩
  rcases Bool.or_eq_true_iff.mp h23 with h1 | h2
  · rw [of_decide_eq_true h1]; exact ⟨_, rfl⟩
  · rw [of_decide_eq_true h2]; exact ⟨_, rfl⟩

theorem nqlNameValuesBody_ok (f : Field) (h : supportedType f.typeStr = true) :
    ∃ y, nqlNameValuesBody f = .ok y := by
  unfold nqlNameValuesBody
  rw [funcValue_ok f "m" h]
  exact ⟨_, rfl⟩

theorem nqlNameValuesBody_err (f : Field) (h : supportedType f.typeStr = false) :
    ∃ e, nqlNameValuesBody f = .error e := by
  unfold nqlNameValuesBody
  rw [funcValue_error f "m" h]
  exact ⟨_, rfl⟩

theorem funcNqlNameValues_ok (s : Struct) (h : ∀ f ∈ s.fields, supportedType f.typeStr = true) :
    ∃ t, funcNqlNameValues s = .ok t := by
  obtain ⟨bs, hbs⟩ := mapE_isOk_of_all nqlNameValuesBody s.fields
    (fun f hf => nqlNameValuesBody_ok f (h f hf))
  exact ⟨_, by unfold funcNqlNameValues; rw [hbs]; rfl⟩

theorem funcNqlNameValues_err (s : Struct) (f : Field) (hf : f ∈ s.fields)
    (h : supportedType f.typeStr = false) : ∃ e, funcNqlNameValues s = .error e := by
  obtain ⟨e2, he2⟩ := mapE_error_of_mem nqlNameValuesBody s.fields f hf
    (nqlNameValuesBody_err f h)
  exact ⟨e2, by unfold funcNqlNameValues; rw [he2]; rfl⟩

theorem nqlValuesBody_ok (f : Field) (h : supportedType f.typeStr = true) :
    ∃ y, nqlValuesBody f = .ok y := by
  unfold nqlValuesBody
  rw [funcValue_ok f "m" h]
  exact ⟨_, rfl⟩

theorem funcNqlValues_ok (s : Struct) (h : ∀ f ∈ s.fields, supportedType f.typeStr = true) :
    ∃ t, funcNqlValues s = .ok t := by
  obtain ⟨bs, hbs⟩ := mapE_isOk_of_all nqlValuesBody s.fields
    (fun f hf => nqlValuesBody_ok f (h f hf))
  exact ⟨_, by unfold funcNqlValues; rw [hbs]; rfl⟩

theorem conditionItemBody_ok (s : Struct) (f : Field) (h : supportedType f.typeStr = true) :
    ∃ y, conditionItemBody s f = .ok y := by
  unfold conditionItemBody
  rw [funcEq_ok f _ _ _ h]
  exact ⟨_, rfl⟩

theorem funcConditionItem_ok (s : Struct) (h : ∀ f ∈ s.fields, supportedType f.typeStr = true) :
    ∃ t, funcConditionItem s = .ok t := by
  obtain ⟨bs, hbs⟩ := mapE_isOk_of_all (conditionItemBody s) s.fields
    (fun f hf => conditionItemBody_ok s f (h f hf))
  exact ⟨_, by unfold funcConditionItem; rw [hbs]; rfl⟩

theorem bindRecordBody_ok (s : Struct) (f : Field) (h : supportedType f.typeStr = true) :
    ∃ y, bindRecordBody s f = .ok y := by
  obtain ⟨t, ht⟩ := funcBindResult_ok f "m" (s.nickname ++ "_") h
  unfold bindRecordBody
  rw [ht]
  exact ⟨_, rfl⟩

theorem funcBindRecord_ok (s : Struct) (h : ∀ f ∈ s.fields, supportedType f.typeStr = true) :
    ∃ t, funcBindRecord s = .ok t := by
  obtain ⟨bs, hbs⟩ := mapE_isOk_of_all (bindRecordBody s) s.fields
    (fun f hf => bindRecordBody_ok s f (h f hf))
  obtain ⟨t0, ht0⟩ := funcBindResult_ok IDFIELD "m" (s.nickname ++ "_") rfl
  by_cases htag : s.isTag
  · exact ⟨_, by unfold funcBindRecord; rw [htag]; simp only [if_true, ht0, ok_bind, hbs]; rfl⟩
  · exact ⟨_, by unfold funcBindRecord;
                 simp only [htag, if_false, Bool.false_eq_true, ok_bind, hbs]; rfl⟩

theorem condBranch_ok (s : Struct) (f : Field) (h : supportedType f.typeStr = true) :
    condBranch s f = .ok (f.nickname, f.funcEqT ("v." ++ s.nickname ++ ".") "m" "v") := by
  unfold condBranch
  rw [funcEq_ok f _ _ _ h]
  rfl

theorem conditionBranches_ok (s : Struct) (h : ∀ f ∈ s.fields, supportedType f.typeStr = true) :
    conditionBranches s =
      .ok (s.fields.map (fun f => (f.nickname, f.funcEqT ("v." ++ s.nickname ++ ".") "m" "v"))) := by
  unfold conditionBranches
  exact mapE_ok_of_all _ _ s.fields (fun f hf => condBranch_ok s f (h f hf))

theorem generateStruct_ok (s : Struct) (h : ∀ f ∈ s.fields, supportedType f.typeStr = true) :
    ∃ t, generateStruct s = .ok t := by
  obtain ⟨t1, h1⟩ := funcNqlNameValues_ok s h
  obtain ⟨t2, h2⟩ := funcNqlValues_ok s h
  obtain ⟨t3, h3⟩ := funcBindRecord_ok s h
  obtain ⟨t4, h4⟩ := funcConditionItem_ok s h
  exact ⟨_, by unfold generateStruct; rw [h1]; simp only [ok_bind]; rw [h2]
               simp only [ok_bind]; rw [h3]; simp only [ok_bind]; rw [h4]; rfl⟩

theorem generateStruct_err (s : Struct) (f : Field) (hf : f ∈ s.fields)
    (h : supportedType f.typeStr = false) : ∃ e, generateStruct s = .error e := by
  obtain ⟨e, he⟩ := funcNqlNameValues_err s f hf h
  exact ⟨e, by unfold generateStruct; rw [he]; rfl⟩

theorem generate_ok (structs : List Struct)
    (h : ∀ s ∈ structs, ∀ f ∈ s.fields, supportedType f.typeStr = true) :
    ∃ t, generate structs = .ok t := by
  obtain ⟨parts, hparts⟩ := mapE_isOk_of_all generateStruct structs
    (fun s hs => generateStruct_ok s (h s hs))
  exact ⟨_, by unfold generate; rw [hparts]; rfl⟩

theorem generate_err (structs : List Struct) (s : Struct) (hs : s ∈ structs)
    (f : Field) (hf : f ∈ s.fields) (h : supportedType f.typeStr = false) :
    ∃ e, generate structs = .error e := by
  obtain ⟨e2, he2⟩ := mapE_error_of_mem generateStruct structs s hs (generateStruct_err s f hf h)
  exact ⟨e2, by unfold generate; rw [he2]; rfl⟩

theorem genStructStep_name (s : Struct) (fd : FieldDecl) : (genStructStep s fd).name = s.name := by
  unfold genStructStep
  cases fd.shape <;> simp only [] <;> split_ifs <;> rfl

theorem genStructStep_nickname (s : Struct) (fd : FieldDecl) :
    (genStructStep s fd).nickname = s.nickname := by
  unfold genStructStep
  cases fd.shape <;> simp only [] <;> split_ifs <;> rfl

theorem foldl_genStructStep_name :
    ∀ (fds : List FieldDecl) (s : Struct), (fds.foldl genStructStep s).name = s.name
  | [], _ => rfl
  | fd :: fds, s => by
    rw [List.foldl_cons, foldl_genStructStep_name fds, genStructStep_name]

theorem foldl_genStructStep_nickname :
    ∀ (fds : List FieldDecl) (s : Struct), (fds.foldl genStructStep s).nickname = s.nickname
  | [], _ => rfl
  | fd :: fds, s => by
    rw [List.foldl_cons, foldl_genStructStep_nickname fds, genStructStep_nickname]

theorem genStructStep_fields_append (s : Struct) (fd : FieldDecl) :
    ∃ t, (genStructStep s fd).fields = s.fields ++ t := by
  unfold genStructStep
  cases fd.shape
  · exact ⟨_, rfl⟩
  · simp only []; split_ifs <;> exact ⟨[], by simp⟩
  · simp only []; split_ifs <;> exact ⟨[], by simp⟩
  · exact ⟨[], by simp⟩

theorem foldl_genStructStep_fields_append :
    ∀ (fds : List FieldDecl) (s : Struct), ∃ t, (fds.foldl genStructStep s).fields = s.fields ++ t
  | [], s => ⟨[], by simp⟩
  | fd :: fds, s => by
    obtain ⟨t1, h1⟩ := genStructStep_fields_append s fd
    obtain ⟨t2, h2⟩ := foldl_genStructStep_fields_append fds (genStructStep s fd)
    exact ⟨t1 ++ t2, by rw [List.foldl_cons, h2, h1, List.append_assoc]⟩

theorem genStructStep_fields_nick (s : Struct) (fd : FieldDecl)
    (h : ∀ f ∈ s.fields, f.nickname = goToLower f.name) :
    ∀ f ∈ (genStructStep s fd).fields, f.nickname = goToLower f.name := by
  intro f hf
  unfold genStructStep at hf
  cases hshape : fd.shape <;> rw [hshape] at hf
  case ident ty =>
    simp only [] at hf
    rcases List.mem_append.mp hf with hold | hnew
    · exact h f hold
    · obtain ⟨n, _, rfl⟩ := List.mem_map.mp hnew
      rfl
  case sel selName =>
    simp only [] at hf
    revert hf; split_ifs <;> exact fun hf => h f hf
  case star selName =>
    simp only [] at hf
    revert hf; split_ifs <;> exact fun hf => h f hf
  case otherShape =>
    exact h f hf

theorem foldl_genStructStep_fields_nick :
    ∀ (fds : List FieldDecl) (s : Struct),
      (∀ f ∈ s.fields, f.nickname = goToLower f.name) →
      ∀ f ∈ (fds.foldl genStructStep s).fields, f.nickname = goToLower f.name
  | [], _, h => h
  | fd :: fds, s, h => by
    rw [List.foldl_cons]
    exact foldl_genStructStep_fields_nick fds _ (genStructStep_fields_nick s fd h)

theorem nqlValuesStep_none (s : Struct) (lit : Field → String) (values r : String)
    (hfind : s.fields.find? (fun fd => fd.nickname == r) = none) :
    nqlValuesStep s lit values r = values := by
  unfold nqlValuesStep; rw [hfind]

theorem nqlValuesStep_some (s : Struct) (lit : Field → String) (values r : String) (fd : Field)
    (hfind : s.fields.find? (fun fd => fd.nickname == r) = some fd) :
    nqlValuesStep s lit values r = values ++ "," ++ lit fd := by
  unfold nqlValuesStep; rw [hfind]

theorem nqlValuesAcc_foldl (s : Struct) (lit : Field → String) :
    ∀ (reqs : List String) (acc : String),
      reqs.foldl (nqlValuesStep s lit) acc = acc ++ withCommas (matchedValues s lit reqs)
  | [], acc => by simp [matchedValues, withCommas]
  | r :: reqs, acc => by
    rw [List.foldl_cons]
    cases hfind : s.fields.find? (fun fd => fd.nickname == r) with
    | none =>
      rw [nqlValuesStep_none s lit acc r hfind]
      rw [nqlValuesAcc_foldl s lit reqs acc]
      simp [matchedValues, List.filterMap_cons, hfind]
    | some fd =>
      rw [nqlValuesStep_some s lit acc r fd hfind]
      rw [nqlValuesAcc_foldl s lit reqs (acc ++ "," ++ lit fd)]
      simp [matchedValues, List.filterMap_cons, hfind, withCommas, String.append_assoc]

theorem withCommas_ne_empty (v : String) (l : List String) : withCommas (v :: l) ≠ "" := by
  intro hcontr
  have hdata : ("," ++ v ++ withCommas l).data = ("" : String).data :=
    congrArg String.data hcontr
  have hcomma : ("," : String).data = [','] := rfl
  simp [String.data_append, hcomma] at hdata

theorem strDropChars_withCommas (v : String) (l : List String) :
    strDropChars (withCommas (v :: l)) 1 = v ++ withCommas l := by
  apply String.ext
  have hcomma : ("," : String).data = [','] := rfl
  simp [strDropChars, withCommas, String.data_append, hcomma]

theorem commaJoin_withCommas : ∀ (v : String) (l : List String),
    v ++ withCommas l = commaJoin (v :: l)
  | v, [] => by simp [withCommas, commaJoin]
  | v, w :: t => by
    unfold commaJoin withCommas
    rw [← commaJoin_withCommas w t]
    simp [String.append_assoc]

theorem genNqlValuesRun_eq (s : Struct) (lit : Field → String) (reqs : List String) :
    genNqlValuesRun s lit reqs =
      match matchedValues s lit reqs with
      | [] => none
      | v :: l => some (commaJoin (v :: l)) := by
  unfold genNqlValuesRun nqlValuesAcc
  rw [nqlValuesAcc_foldl s lit reqs ""]
  cases hm : matchedValues s lit reqs with
  | nil => simp [withCommas]
  | cons v l =>
    rw [String.empty_append]
    rw [if_neg (withCommas_ne_empty v l)]
    rw [strDropChars_withCommas, commaJoin_withCommas]

theorem genConditionItemRun_id (s : Struct)
    (h : ∀ f ∈ s.fields, supportedType f.typeStr = true) :
    genConditionItemRun s ["id"] =
      .ok (match s.fields.find? (fun fd => fd.nickname == "id") with
           | some f => [f.funcEqT ("v." ++ s.nickname ++ ".") "m" "v"]
           | none => []) := by
  unfold genConditionItemRun
  rw [conditionBranches_ok s h]
  simp only [ok_bind]
  simp only [List.foldl_cons, List.foldl_nil]
  rw [List.find?_map]
  cases hfind : s.fields.find? (fun fd => fd.nickname == "id") with
  | none =>
    have : s.fields.find?
        ((fun b : String × String => b.1 == "id") ∘
          (fun f => (f.nickname, f.funcEqT ("v." ++ s.nickname ++ ".") "m" "v"))) = none := by
      rw [← hfind]; rfl
    rw [this]; rfl
  | some f =>
    have : s.fields.find?
        ((fun b : String × String => b.1 == "id") ∘
          (fun f => (f.nickname, f.funcEqT ("v." ++ s.nickname ++ ".") "m" "v"))) = some f := by
      rw [← hfind]; rfl
    rw [this]; rfl

/-! ### Additional helper lemmas -/

theorem funcAllFields_ne_empty (s : Struct) : funcAllFields s ≠ "" := by
  intro hc
  have hd := congrArg String.data hc
  have hfu : ("func (m *" : String).data = 'f' :: ("unc (m *" : String).data := rfl
  have hnil : ("" : String).data = [] := rfl
  simp only [funcAllFields, String.data_append, hnil, List.append_assoc, hfu] at hd
  simp at hd

theorem funcAllFieldsWithId_ne_empty (s : Struct) : funcAllFieldsWithId s ≠ "" := by
  intro hc
  have hd := congrArg String.data hc
  have hfu : ("func (m *" : String).data = 'f' :: ("unc (m *" : String).data := rfl
  have hnil : ("" : String).data = [] := rfl
  simp only [funcAllFieldsWithId, String.data_append, hnil, List.append_assoc, hfu] at hd
  simp at hd

theorem funcNqlNames_ne_empty (s : Struct) : funcNqlNames s ≠ "" := by
  intro hc
  have hd := congrArg String.data hc
  have hfu : ("func (m *" : String).data = 'f' :: ("unc (m *" : String).data := rfl
  have hnil : ("" : String).data = [] := rfl
  simp only [funcNqlNames, String.data_append, hnil, List.append_assoc, hfu] at hd
  simp at hd

theorem funcNqlBind_ne_empty (s : Struct) : funcNqlBind s ≠ "" := by
  intro hc
  have hd := congrArg String.data hc
  have hfu : ("func (m *" : String).data = 'f' :: ("unc (m *" : String).data := rfl
  have hnil : ("" : String).data = [] := rfl
  simp only [funcNqlBind, String.data_append, hnil, List.append_assoc, hfu] at hd
  simp at hd

theorem funcBindOne_ne_empty (s : Struct) : funcBindOne s ≠ "" := by
  intro hc
  have hd := congrArg String.data hc
  have hfu : ("func (m *" : String).data = 'f' :: ("unc (m *" : String).data := rfl
  have hnil : ("" : String).data = [] := rfl
  simp only [funcBindOne, String.data_append, hnil, List.append_assoc, hfu] at hd
  simp at hd

set_option maxRecDepth 8192 in
theorem funcOne_ne_empty (s : Struct) : funcOne s ≠ "" := by
  intro hc
  have hd := congrArg String.data hc
  have hfu : ("func (m *" : String).data = 'f' :: ("unc (m *" : String).data := rfl
  have hnil : ("" : String).data = [] := rfl
  simp only [funcOne, String.data_append, hnil, List.append_assoc, hfu] at hd
  simp at hd

set_option maxRecDepth 8192 in
theorem funcList_ne_empty (s : Struct) : funcList s ≠ "" := by
  intro hc
  have hd := congrArg String.data hc
  have hfu : ("func (m *" : String).data = 'f' :: ("unc (m *" : String).data := rfl
  have hnil : ("" : String).data = [] := rfl
  simp only [funcList, String.data_append, hnil, List.append_assoc, hfu] at hd
  simp at hd

set_option maxRecDepth 8192 in
theorem funcBindResult_ne_empty (s : Struct) : funcBindResult s ≠ "" := by
  intro hc
  have hd := congrArg String.data hc
  have hty : ("type " : String).data = 't' :: ("ype " : String).data := rfl
  have hnil : ("" : String).data = [] := rfl
  simp only [funcBindResult, String.data_append, hnil, List.append_assoc, hty] at hd
  simp at hd

theorem funcNqlNameValues_ok_ne (s : Struct) (t : String)
    (hok : funcNqlNameValues s = .ok t) : t ≠ "" := by
  unfold funcNqlNameValues at hok
  cases hmb : mapE nqlNameValuesBody s.fields with
  | error e => rw [hmb] at hok; exact absurd hok (by simp [error_bind])
  | ok bs =>
    rw [hmb] at hok
    simp only [ok_bind] at hok
    injection hok with hpay
    intro hc
    rw [hc] at hpay
    have hd := congrArg String.data hpay
    have hfu : ("func (m *" : String).data = 'f' :: ("unc (m *" : String).data := rfl
    have hnil : ("" : String).data = [] := rfl
    simp only [String.data_append, hnil, List.append_assoc, hfu] at hd
    simp at hd

theorem funcNqlValues_ok_ne (s : Struct) (t : String)
    (hok : funcNqlValues s = .ok t) : t ≠ "" := by
  unfold funcNqlValues at hok
  cases hmb : mapE nqlValuesBody s.fields with
  | error e => rw [hmb] at hok; exact absurd hok (by simp [error_bind])
  | ok bs =>
    rw [hmb] at hok
    simp only [ok_bind] at hok
    injection hok with hpay
    intro hc
    rw [hc] at hpay
    have hd := congrArg String.data hpay
    have hfu : ("func (m *" : String).data = 'f' :: ("unc (m *" : String).data := rfl
    have hnil : ("" : String).data = [] := rfl
    simp only [String.data_append, hnil, List.append_assoc, hfu] at hd
    simp at hd

theorem funcConditionItem_ok_ne (s : Struct) (t : String)
    (hok : funcConditionItem s = .ok t) : t ≠ "" := by
  unfold funcConditionItem at hok
  cases hmb : mapE (conditionItemBody s) s.fields with
  | error e => rw [hmb] at hok; exact absurd hok (by simp [error_bind])
  | ok bs =>
    rw [hmb] at hok
    simp only [ok_bind] at hok
    injection hok with hpay
    intro hc
    rw [hc] at hpay
    have hd := congrArg String.data hpay
    have hfu : ("func (m *" : String).data = 'f' :: ("unc (m *" : String).data := rfl
    have hnil : ("" : String).data = [] := rfl
    simp only [String.data_append, hnil, List.append_assoc, hfu] at hd
    simp at hd

theorem funcBindRecord_ok_ne (s : Struct) (t : String)
    (hok : funcBindRecord s = .ok t) : t ≠ "" := by
  unfold funcBindRecord at hok
  by_cases htag : s.isTag
  · obtain ⟨t0, ht0⟩ := funcBindResult_ok IDFIELD "m" (s.nickname ++ "_") rfl
    simp only [htag, if_true, ht0, ok_bind] at hok
    cases hmb : mapE (bindRecordBody s) s.fields with
    | error e => rw [hmb] at hok; exact absurd hok (by simp [error_bind])
    | ok bs =>
      rw [hmb] at hok
      simp only [ok_bind] at hok
      injection hok with hpay
      intro hc
      rw [hc] at hpay
      have hd := congrArg String.data hpay
      have hfu : ("func (m *" : String).data = 'f' :: ("unc (m *" : String).data := rfl
      have hnil : ("" : String).data = [] := rfl
      simp only [String.data_append, hnil, List.append_assoc, hfu] at hd
      simp at hd
  · simp only [htag, Bool.false_eq_true, if_false, ok_bind] at hok
    cases hmb : mapE (bindRecordBody s) s.fields with
    | error e => rw [hmb] at hok; exact absurd hok (by simp [error_bind])
    | ok bs =>
      rw [hmb] at hok
      simp only [ok_bind] at hok
      injection hok with hpay
      intro hc
      rw [hc] at hpay
      have hd := congrArg String.data hpay
      have hfu : ("func (m *" : String).data = 'f' :: ("unc (m *" : String).data := rfl
      have hnil : ("" : String).data = [] := rfl
      simp only [String.data_append, hnil, List.append_assoc, hfu] at hd
      simp at hd

/-! ### Claim theorems -/

/-- Claim C1, counterexample: a Plain entity (no Tag/Edge marker) is not
invisible to the Template Emitter — its per-struct emission succeeds and
contains an `AllFields()` fragment, contradicting the claim that none of
the operation templates are emitted for it. -/
theorem claim1_counterexample :
    plainConfigS.isTag = false ∧ plainConfigS.isEdge = false ∧
    goContains ((generateStruct plainConfigS).toOption.getD "") "AllFields()" = true := by
  refine ⟨by decide, by decide, by rfl⟩

/-- Claim C1, amended: for a Plain entity (all of whose field types the
codec supports) the emitter suppresses exactly the kind-gated templates
(`TagName`/`EdgeName`, `Create`, `Insert`, `RemoveById`) and its line in
the aggregate `Create`; every kind-independent template — `AllFields`,
`AllFieldsWithId`, `NqlNames`, `NqlBind`, `BindOne`, `One`, `List`, the
`List` type with `BindResult`, `NqlNameValues`, `NqlValues`,
`ConditionItem` and `BindRecord` — is still emitted as a non-empty
fragment. -/
theorem claim1_amended (s : Struct) (h1 : s.isTag = false) (h2 : s.isEdge = false)
    (h : ∀ f ∈ s.fields, supportedType f.typeStr = true) :
    funcTagName s = "" ∧ funcEdgeName s = "" ∧ CreateTag s = "" ∧ CreateEdge s = "" ∧
    funcInsertTag s = "" ∧ funcInsertEdge s = "" ∧ funcRemoveTag s = "" ∧
    funcRemoveEdge s = "" ∧ Create [s] = Create [] ∧
    funcAllFields s ≠ "" ∧ funcAllFieldsWithId s ≠ "" ∧ funcNqlNames s ≠ "" ∧
    funcNqlBind s ≠ "" ∧ funcBindOne s ≠ "" ∧ funcOne s ≠ "" ∧ funcList s ≠ "" ∧
    funcBindResult s ≠ "" ∧
    (∃ t, funcNqlNameValues s = .ok t ∧ t ≠ "") ∧
    (∃ t, funcNqlValues s = .ok t ∧ t ≠ "") ∧
    (∃ t, funcConditionItem s = .ok t ∧ t ≠ "") ∧
    (∃ t, funcBindRecord s = .ok t ∧ t ≠ "") := by
  obtain ⟨t1, ht1⟩ := funcNqlNameValues_ok s h
  obtain ⟨t2, ht2⟩ := funcNqlValues_ok s h
  obtain ⟨t3, ht3⟩ := funcConditionItem_ok s h
  obtain ⟨t4, ht4⟩ := funcBindRecord_ok s h
  refine ⟨?_, ?_, ?_, ?_, ?_, ?_, ?_, ?_, ?_,
    funcAllFields_ne_empty s, funcAllFieldsWithId_ne_empty s, funcNqlNames_ne_empty s,
    funcNqlBind_ne_empty s, funcBindOne_ne_empty s, funcOne_ne_empty s, funcList_ne_empty s,
    funcBindResult_ne_empty s,
    ⟨t1, ht1, funcNqlNameValues_ok_ne s t1 ht1⟩,
    ⟨t2, ht2, funcNqlValues_ok_ne s t2 ht2⟩,
    ⟨t3, ht3, funcConditionItem_ok_ne s t3 ht3⟩,
    ⟨t4, ht4, funcBindRecord_ok_ne s t4 ht4⟩⟩
  all_goals simp [funcTagName, funcEdgeName, CreateTag, CreateEdge, funcInsertTag,
    funcInsertEdge, funcRemoveTag, funcRemoveEdge, Create, h1, h2, String.join]

/-- Claim C1, witness for the amended theorem at the concrete Plain
entity `Config`. -/
theorem claim1_witness :
    funcTagName plainConfigS = "" ∧ funcEdgeName plainConfigS = "" ∧
    CreateTag plainConfigS = "" ∧ CreateEdge plainConfigS = "" ∧
    funcInsertTag plainConfigS = "" ∧ funcInsertEdge plainConfigS = "" ∧
    funcRemoveTag plainConfigS = "" ∧ funcRemoveEdge plainConfigS = "" ∧
    Create [plainConfigS] = Create [] ∧
    funcAllFields plainConfigS ≠ "" ∧ funcAllFieldsWithId plainConfigS ≠ "" ∧
    funcNqlNames plainConfigS ≠ "" ∧ funcNqlBind plainConfigS ≠ "" ∧
    funcBindOne plainConfigS ≠ "" ∧ funcOne plainConfigS ≠ "" ∧
    funcList plainConfigS ≠ "" ∧ funcBindResult plainConfigS ≠ "" ∧
    (∃ t, funcNqlNameValues plainConfigS = .ok t ∧ t ≠ "") ∧
    (∃ t, funcNqlValues plainConfigS = .ok t ∧ t ≠ "") ∧
    (∃ t, funcConditionItem plainConfigS = .ok t ∧ t ≠ "") ∧
    (∃ t, funcBindRecord plainConfigS = .ok t ∧ t ≠ "") :=
  claim1_amended plainConfigS (by decide) (by decide) (by decide)

/-- Claim C2, counterexample: with configured trim value `Ng` and
declared name `NgPerson`, the code derives `ngperson` (plain lower-case,
no trimming) while the spec formula demands `person`. -/
theorem claim2_counterexample :
    (genStruct "Ng" "NgPerson" []).nickname = "ngperson" ∧
    externalNameSpec "Ng" "NgPerson" = "person" ∧
    (genStruct "Ng" "NgPerson" []).nickname ≠ externalNameSpec "Ng" "NgPerson" := by
  refine ⟨by decide, by decide, by decide⟩

/-- Claim C2, amended: the derived external name is the lower-cased
declared name for the entity and for every field; the configured trim
value is carried in the extractor's state but never applied. -/
theorem claim2_amended (tp tn : String) (fds : List FieldDecl) :
    (genStruct tp tn fds).nickname = goToLower tn ∧
    ∀ f ∈ (genStruct tp tn fds).fields, f.nickname = goToLower f.name := by
  constructor
  · exact foldl_genStructStep_nickname fds _
  · exact foldl_genStructStep_fields_nick fds _ (by intro f hf; simp at hf)

/-- Claim C2, witness for the amended theorem at a concrete declaration
with trim value `Ng`, entity `NgPerson` and field `NgName`. -/
theorem claim2_witness :
    (genStruct "Ng" "NgPerson" [⟨["NgName"], .ident "string", "", none⟩]).nickname =
      goToLower "NgPerson" ∧
    (fieldOfName "string" "" none "NgName").nickname =
      goToLower (fieldOfName "string" "" none "NgName").name :=
  ⟨(claim2_amended "Ng" "NgPerson" [⟨["NgName"], .ident "string", "", none⟩]).1,
   (claim2_amended "Ng" "NgPerson" [⟨["NgName"], .ident "string", "", none⟩]).2 _ (by decide)⟩

/-- Claim C3, counterexample: for the Vertex entity `Person`, which
declares no field named `Id`, the generated `ConditionItem` called with
`["id"]` produces no predicate at all — not the claimed identity
predicate. -/
theorem claim3_counterexample :
    c3Person.isTag = true ∧ genConditionItemRun c3Person ["id"] = .ok [] :=
  ⟨by decide, by rfl⟩

/-- Claim C3, amended: `ConditionItem(["id"])` dispatches only over the
declared fields.  It yields the identity predicate `id(v)==value` when a
declared field with external name `id` exists and its declared name is
exactly `Id`; it yields a property-equality predicate when such a field
exists under another spelling; and it yields no predicate at all when no
declared field has external name `id`. -/
theorem claim3_amended (s : Struct) (h : ∀ f ∈ s.fields, supportedType f.typeStr = true) :
    (s.fields.find? (fun fd => fd.nickname == "id") = none →
      genConditionItemRun s ["id"] = .ok []) ∧
    (∀ f, s.fields.find? (fun fd => fd.nickname == "id") = some f → f.name = "Id" →
      genConditionItemRun s ["id"] = .ok ["id(" ++ "v" ++ ")==" ++ f.funcValueT "m"]) ∧
    (∀ f, s.fields.find? (fun fd => fd.nickname == "id") = some f → f.name ≠ "Id" →
      genConditionItemRun s ["id"] =
        .ok ["\"" ++ ("v." ++ s.nickname ++ ".") ++ "id" ++ "==\"+" ++ f.funcValueT "m"]) := by
  have hrun := genConditionItemRun_id s h
  refine ⟨?_, ?_, ?_⟩
  · intro hfind
    rw [hrun, hfind]
  · intro f hfind hid
    rw [hrun, hfind]
    simp only [funcEqT_id f ("v." ++ s.nickname ++ ".") "m" "v" hid]
  · intro f hfind hid
    have hp := List.find?_some hfind
    have hnick : f.nickname = "id" := eq_of_beq hp
    rw [hrun, hfind]
    simp only [funcEqT_prop f ("v." ++ s.nickname ++ ".") "m" "v" hid, hnick]

/-- Claim C3, witness for the amended theorem: the entity `Acct`
declares `Id int64`, and `ConditionItem(["id"])` yields the identity
predicate. -/
theorem claim3_witness :
    genConditionItemRun c3Acct ["id"] =
      .ok ["id(" ++ "v" ++ ")==" ++ idDeclField.funcValueT "m"] :=
  (claim3_amended c3Acct (by decide)).2.1 idDeclField (by decide) (by decide)

set_option maxRecDepth 8192 in
/-- Claim C4, counterexample: the indexed field `Age` of `Person`
carries an `idx` annotation with empty value; the emitted index
statement ends in `ON person()` — empty parentheses — not the claimed
`ON person(age)`. -/
theorem claim4_counterexample :
    c4Person.isTag = true ∧ c4Person.fields = [ageIdxField] ∧ ageIdxField.isIndex = true ∧
    tagIndexNql c4Person ageIdxField = "CREATE TAG INDEX IF NOT EXISTS idx_age ON person()" ∧
    tagIndexNql c4Person ageIdxField ≠ "CREATE TAG INDEX IF NOT EXISTS idx_age ON person(age)" ∧
    goContains (CreateTag c4Person) "idx_age ON \" + m.TagName() + \"()\"" = true := by
  refine ⟨by decide, by decide, by decide, by decide, by decide, by rfl⟩

/-- Claim C4, amended: the parentheses of the emitted
`CREATE TAG INDEX` statement hold exactly the annotation's value: a
field whose `idx` annotation has value `v` yields
`... idx_<field> ON <label>(<v>)`, so an empty value yields `()` (not
the field's own name) and value `x,y` yields `(x,y)`. -/
theorem claim4_amended (tp tn fname ty c v : String) (rest : List FieldDecl)
    (hTag : (genStruct tp tn (⟨[fname], .ident ty, c, some v⟩ :: rest)).isTag = true) :
    ∃ f, (genStruct tp tn (⟨[fname], .ident ty, c, some v⟩ :: rest)).fields.head? = some f ∧
      f.isIndex = true ∧ f.nickname = goToLower fname ∧ f.otherIndexFields = v ∧
      tagIndexNql (genStruct tp tn (⟨[fname], .ident ty, c, some v⟩ :: rest)) f =
        "CREATE TAG INDEX IF NOT EXISTS idx_" ++ goToLower fname ++ " ON " ++ goToLower tn
          ++ "(" ++ v ++ ")" := by
  have hstep : genStruct tp tn (⟨[fname], .ident ty, c, some v⟩ :: rest) =
      rest.foldl genStructStep (genStructStep
        { name := tn, nickname := goToLower tn, fields := [], isTag := false, isEdge := false }
        ⟨[fname], .ident ty, c, some v⟩) := by
    unfold genStruct
    rw [List.foldl_cons]
  obtain ⟨t, ht⟩ := foldl_genStructStep_fields_append rest (genStructStep
    { name := tn, nickname := goToLower tn, fields := [], isTag := false, isEdge := false }
    ⟨[fname], .ident ty, c, some v⟩)
  have hnick := foldl_genStructStep_nickname rest (genStructStep
    { name := tn, nickname := goToLower tn, fields := [], isTag := false, isEdge := false }
    ⟨[fname], .ident ty, c, some v⟩)
  refine ⟨fieldOfName ty c (some v) fname, ?_, rfl, rfl, rfl, ?_⟩
  · rw [hstep, ht]
    rfl
  · rw [hstep]
    unfold tagIndexNql
    rw [hnick]
    rfl

set_option maxRecDepth 8192 in
/-- Claim C4, witness for the amended theorem: annotation value `x,y`
on field `Age` of Vertex entity `Person` yields `ON person(x,y)`. -/
theorem claim4_witness :
    ∃ f, (genStruct "" "Person"
        (⟨["Age"], .ident "int32", "", some "x,y"⟩ :: [⟨[], .star "Tag", "", none⟩])).fields.head? =
          some f ∧
      f.isIndex = true ∧ f.nickname = goToLower "Age" ∧ f.otherIndexFields = "x,y" ∧
      tagIndexNql (genStruct "" "Person"
          (⟨["Age"], .ident "int32", "", some "x,y"⟩ :: [⟨[], .star "Tag", "", none⟩])) f =
        "CREATE TAG INDEX IF NOT EXISTS idx_" ++ goToLower "Age" ++ " ON " ++ goToLower "Person"
          ++ "(" ++ "x,y" ++ ")" :=
  claim4_amended "" "Person" "Age" "int32" "" "x,y" [⟨[], .star "Tag", "", none⟩] (by decide)

/-- Claim C5, counterexample: the Vertex entity `Acct` declares a field
`Id`, whose external name `id` then appears in `AllFields()` — the
reservation of `id` is not enforced. -/
theorem claim5_counterexample :
    c5Acct.isTag = true ∧ "id" ∈ allFields c5Acct := by
  refine ⟨by decide, by decide⟩

/-- Claim C5, amended: `AllFieldsWithId()` is always `AllFields()` with
`"id"` appended; `"id"` is absent from `AllFields()` only under the
side condition — not enforced by the code — that no declared field's
external name is `id`. -/
theorem claim5_amended (s : Struct) :
    allFieldsWithId s = allFields s ++ ["id"] ∧
    ((∀ f ∈ s.fields, f.nickname ≠ "id") → "id" ∉ allFields s) := by
  refine ⟨rfl, ?_⟩
  intro h hmem
  obtain ⟨f, hf, hnick⟩ := List.mem_map.mp hmem
  exact h f hf hnick

/-- Claim C5, witness for the amended theorem at the Vertex entity
`Person`, which declares no `id` field. -/
theorem claim5_witness :
    allFieldsWithId c5Person = allFields c5Person ++ ["id"] ∧ "id" ∉ allFields c5Person :=
  ⟨(claim5_amended c5Person).1, (claim5_amended c5Person).2 (by decide)⟩

/-- Claim C6, counterexample: requesting `["name", "missing"]` from the
generated `NqlValues` of `Person` raises no error at all — the
mismatched name `missing` is silently skipped and the matched value is
returned. -/
theorem claim6_counterexample :
    genNqlValuesRun c6Person litC6 ["name", "missing"] = some "V" ∧
    c6Person.fields.find? (fun fd => fd.nickname == "missing") = none :=
  ⟨by rfl, by rfl⟩

/-- Claim C6, amended: the generated `NqlValues` silently skips
mismatched field names; it fails (the `values[1:]` slice panics) exactly
when no requested name matches any declared field, and otherwise returns
the matched fields' serialised values joined with `,` in request
order. -/
theorem claim6_amended (s : Struct) (lit : Field → String) (reqs : List String) :
    (genNqlValuesRun s lit reqs = none ↔ matchedValues s lit reqs = []) ∧
    (matchedValues s lit reqs ≠ [] →
      genNqlValuesRun s lit reqs = some (commaJoin (matchedValues s lit reqs))) := by
  rw [genNqlValuesRun_eq]
  cases hm : matchedValues s lit reqs with
  | nil => simp
  | cons v l => simp

/-- Claim C6, witness for the amended theorem at `Person` with the
matched request `["name"]`. -/
theorem claim6_witness :
    genNqlValuesRun c6Person litC6 ["name"] =
      some (commaJoin (matchedValues c6Person litC6 ["name"])) :=
  (claim6_amended c6Person litC6 ["name"]).2 (by decide)

/-- Claim C7, counterexample: two Vertex entities `AB` and `Ab` derive
the same external name `ab`, yet extraction reports no error and the run
produces an output file. -/
theorem claim7_counterexample :
    (extractStructs "" none [c7File]).map (fun s => s.nickname) = ["ab", "ab"] ∧
    (writtenFile "" "pkg" "" none [c7File] (fun x => some x)).isSome = true :=
  ⟨by decide, by rfl⟩

/-- Claim C7, amended: no uniqueness check on external names exists
anywhere; generation succeeds for every model whose field types are all
supported, duplicate external names included, and emits templates for
every colliding entity. -/
theorem claim7_amended (structs : List Struct)
    (h : ∀ s ∈ structs, ∀ f ∈ s.fields, supportedType f.typeStr = true) :
    ∃ t, generate structs = .ok t :=
  generate_ok structs h

/-- Claim C7, witness for the amended theorem at the colliding model
extracted from `c7File`. -/
theorem claim7_witness :
    ∃ t, generate (extractStructs "" none [c7File]) = .ok t :=
  claim7_amended (extractStructs "" none [c7File]) (by decide)

/-- Claim C8: a field with a semantic type outside the supported set
anywhere in the extracted model makes the whole run abort before the
output file is written — `writtenFile` is `none`, nothing partial. -/
theorem claim8_theorem (argsText pkgName tp : String) (allow : Option (List String))
    (files : List SrcFile) (goFmt : String → Option String) (s : Struct) (f : Field)
    (hs : s ∈ extractStructs tp allow files) (hf : f ∈ s.fields)
    (h : supportedType f.typeStr = false) :
    writtenFile argsText pkgName tp allow files goFmt = none := by
  obtain ⟨e, he⟩ := generate_err (extractStructs tp allow files) s hs f hf h
  unfold writtenFile ngormgenRun
  rw [he]
  rfl

/-- Claim C8, witness: a scanned file declaring a Vertex type with a
`bool` field produces no output file. -/
theorem claim8_witness :
    writtenFile "" "main" "" none [c8File] (fun x => some x) = none :=
  claim8_theorem "" "main" "" none [c8File] (fun x => some x) c8Struct c8BoolField
    (by decide) (by decide) (by decide)

/-- Claim C9: when the external formatter fails, the run does not abort;
the bytes handed to the file write are the raw emission buffer (preamble
plus generated body) unchanged. -/
theorem claim9_theorem (argsText pkgName tp : String) (allow : Option (List String))
    (files : List SrcFile) (body : String)
    (hgen : generate (extractStructs tp allow files) = .ok body) :
    ngormgenRun argsText pkgName tp allow files (fun _ => none) =
      .ok (headerText argsText pkgName ++ body) := by
  unfold ngormgenRun
  rw [hgen]
  rfl

/-- Claim C9, witness at the empty scan with an always-failing
formatter. -/
theorem claim9_witness :
    ngormgenRun "x" "main" "" none [] (fun _ => none) =
      .ok (headerText "x" "main" ++ ((checkResultSetText ++ String.join []) ++ Create [])) :=
  claim9_theorem "x" "main" "" none [] _ (by rfl)

/-- Claim C10: a scanned file whose first comment group contains
`Code generated by` is excluded from extraction entirely; removing it
from any scan position leaves the extracted model unchanged, for every
allow-list. -/
theorem claim10_theorem (tp : String) (allow : Option (List String))
    (files1 files2 : List SrcFile) (f : SrcFile) (h : isGeneratedFile f = true) :
    extractStructs tp allow (files1 ++ f :: files2) =
      extractStructs tp allow (files1 ++ files2) := by
  unfold extractStructs addPackage
  rw [List.filter_append, List.filter_append, List.filter_cons]
  simp [h]

/-- Claim C10, witness: a generated-banner file declaring a Vertex type
contributes nothing to extraction. -/
theorem claim10_witness :
    isGeneratedFile c10GenFile = true ∧
    extractStructs "" none ([] ++ c10GenFile :: []) = extractStructs "" none ([] ++ []) :=
  ⟨by decide, claim10_theorem "" none [] [] c10GenFile (by decide)⟩

end Ngorm
